import Mathlib

/-!
# OpenBricks auth service: token lifecycle

A shallow embedding of `services/auth/cmd/main.go` (login, verify, refresh and
`generateToken`) together with the decision logic of the libraries it calls:
`strings.TrimPrefix`, `time.ParseDuration`, and the parse / sign path of
`github.com/golang-jwt/jwt/v5`.

Conventions
* Go `string` values are Lean `String`s; the byte-level operations used by the
  service (`TrimPrefix`, `Split` on `.`) only involve ASCII separators, so they
  are carried out on the character list.
* `time.Time` is the number of nanoseconds since the Unix epoch and
  `time.Duration` is a number of nanoseconds, both as `Int`.
* `time.Now()` is an input: every function receives the readings it consumes,
  in the order the source takes them.
* Cryptographic and textual primitives (HMAC, base64url, JSON) are fields of
  `JwtPrimitives`; everything the library decides on top of them is modelled.
-/

namespace OpenBricks

/-! ## Strings -/

/-- Go `strings.HasPrefix`. -/
def HasPrefix (s pre : String) : Bool :=
  pre.data.isPrefixOf s.data

/-- Go `strings.TrimPrefix`: `s` without the leading `pre`, or `s` itself when
`s` does not start with `pre`. -/
def TrimPrefix (s pre : String) : String :=
  if HasPrefix s pre then String.mk (s.data.drop pre.data.length) else s

/-- Go `strings.Split` for a one-character separator, on character lists. -/
def splitChars (sep : Char) : List Char → List (List Char)
  | [] => [[]]
  | c :: cs =>
    if c = sep then [] :: splitChars sep cs
    else
      match splitChars sep cs with
      | [] => [[c]]
      | p :: ps => (c :: p) :: ps

/-- Go `strings.Split(s, ".")`. -/
def Split (s : String) : List String :=
  (splitChars '.' s.data).map String.mk

/-! ## Time -/

/-- Go `time.Time`, as nanoseconds since the Unix epoch. -/
abbrev Time := Int

/-- Go `time.Duration`, a count of nanoseconds. -/
abbrev Duration := Int

/-- Go `time.Second`. -/
def Second : Duration := 1000000000

/-- Go `time.Hour`. -/
def Hour : Duration := 3600 * Second

/-- Go `Time.Add`. Dates near the present are far from the bounds of
`time.Time`, so the sum does not saturate. -/
def Time.Add (t : Time) (d : Duration) : Time := t + d

/-- Go `Time.Truncate(time.Second)`: round down to a whole second. -/
def Time.TruncateSecond (t : Time) : Time := t / Second * Second

/-- Go `Time.Before`. -/
def Time.Before (t u : Time) : Bool := decide (t < u)

/-! ## `time.ParseDuration` -/

/-- The byte test `'0' <= c && c <= '9'` of package `time`. -/
def isDigit (c : Char) : Bool := decide ('0'.toNat ≤ c.toNat) && decide (c.toNat ≤ '9'.toNat)

/-- Go `time.leadingInt`: the leading digits of `s` as a number, and the rest;
`none` is `errLeadingInt` (overflow). The accumulator starts at `0`. -/
def leadingInt : Nat → List Char → Option (Nat × List Char)
  | x, [] => some (x, [])
  | x, c :: cs =>
    if !isDigit c then some (x, c :: cs)
    else if x > 2 ^ 63 / 10 then none
    else
      let y := x * 10 + (c.toNat - '0'.toNat)
      if y > 2 ^ 63 then none else leadingInt y cs

/-- Go `time.leadingFraction`: the leading digits of `s` as a number `x` with
the count `k` of digits taken (Go returns `scale = 10^k`), and the rest.
Digits after an overflow are skipped. -/
def leadingFraction : Nat → Nat → Bool → List Char → Nat × Nat × List Char
  | x, k, _, [] => (x, k, [])
  | x, k, overflow, c :: cs =>
    if !isDigit c then (x, k, c :: cs)
    else if overflow then leadingFraction x k true cs
    else if x > (2 ^ 63 - 1) / 10 then leadingFraction x k true cs
    else
      let y := x * 10 + (c.toNat - '0'.toNat)
      if y > 2 ^ 63 then leadingFraction x k true cs
      else leadingFraction y (k + 1) false cs

/-- Go `time.unitMap`. -/
def unitMap (u : String) : Option Nat :=
  if u = "ns" then some 1
  else if u = "us" then some 1000
  else if u = "µs" then some 1000
  else if u = "μs" then some 1000
  else if u = "ms" then some 1000000
  else if u = "s" then some 1000000000
  else if u = "m" then some 60000000000
  else if u = "h" then some 3600000000000
  else none

/-- The characters that end a unit: `c == '.' || '0' <= c && c <= '9'`. -/
def endsUnit (c : Char) : Bool := c == '.' || isDigit c

/-- The loop `for s != ""` of `time.ParseDuration`, accumulating the `uint64`
total `d`. The float step `uint64(float64(f) * (float64(unit) / scale))` is the
argument `frac f unit k` with `scale = 10^k`. Every round consumes at least the
unit, so `fuel = len(s)` rounds suffice. -/
def parseDurationLoop (frac : Nat → Nat → Nat → Nat) :
    Nat → Nat → List Char → Option Nat
  | _, d, [] => some d
  | 0, _, _ :: _ => none
  | fuel + 1, d, c :: cs =>
    if !endsUnit c then none
    else
      match leadingInt 0 (c :: cs) with
      | none => none
      | some (v, s1) =>
        let pre := (c :: cs).length != s1.length
        let fr : Nat × Nat × Bool × List Char :=
          match s1 with
          | '.' :: r =>
            let q := leadingFraction 0 0 false r
            (q.1, q.2.1, r.length != q.2.2.length, q.2.2)
          | _ => (0, 0, false, s1)
        let f := fr.1
        let k := fr.2.1
        let post := fr.2.2.1
        let s2 := fr.2.2.2
        if !pre && !post then none
        else
          let u := s2.takeWhile (fun x => !endsUnit x)
          let s3 := s2.dropWhile (fun x => !endsUnit x)
          if u.length = 0 then none
          else
            match unitMap (String.mk u) with
            | none => none
            | some unit =>
              if v > 2 ^ 63 / unit then none
              else
                let v1 := v * unit
                if f > 0 then
                  let v2 := (v1 + frac f unit k) % 2 ^ 64
                  if v2 > 2 ^ 63 then none
                  else
                    let d1 := (d + v2) % 2 ^ 64
                    if d1 > 2 ^ 63 then none
                    else parseDurationLoop frac fuel d1 s3
                else
                  let d1 := (d + v1) % 2 ^ 64
                  if d1 > 2 ^ 63 then none
                  else parseDurationLoop frac fuel d1 s3

/-- Go `time.ParseDuration`; `none` is the error result. -/
def ParseDuration (frac : Nat → Nat → Nat → Nat) (s : String) : Option Duration :=
  let neg := s.data.head? == some '-'
  let body := if s.data.head? == some '-' || s.data.head? == some '+' then s.data.tail else s.data
  if body = ['0'] then some 0
  else if body = [] then none
  else
    match parseDurationLoop frac body.length 0 body with
    | none => none
    | some d =>
      if neg then some (-(d : Int))
      else if d > 2 ^ 63 - 1 then none
      else some (d : Int)

/-! ## Data model (`main.go`, lines 23-54) -/

/-- The `User` record of `main.go`. -/
structure User where
  ID : Int
  Email : String
  Password : String
  Name : String
  Role : String
  CreatedAt : Time
  deriving DecidableEq, Repr

/-- The zero value `User{}`, the state of `var user User` before `Scan`. -/
def User.zero : User := ⟨0, "", "", "", "", 0⟩

/-- The `LoginRequest` body. -/
structure LoginRequest where
  Email : String
  Password : String
  deriving DecidableEq, Repr

/-- The `jwt.RegisteredClaims` of golang-jwt v5; a `*NumericDate` is an optional
time. -/
structure RegisteredClaims where
  Issuer : String
  Subject : String
  Audience : List String
  ExpiresAt : Option Time
  NotBefore : Option Time
  IssuedAt : Option Time
  ID : String
  deriving DecidableEq, Repr

/-- The `Claims` of `main.go`: three private claims and the embedded
`jwt.RegisteredClaims`. -/
structure Claims extends RegisteredClaims where
  UserID : Int
  Email : String
  Role : String
  deriving DecidableEq, Repr

/-- Go `jwt.NewNumericDate`: the time truncated to `jwt.TimePrecision`, which is
`time.Second` unless reassigned (the service does not). -/
def NewNumericDate (t : Time) : Option Time := some (Time.TruncateSecond t)

/-! ## golang-jwt v5: signing methods -/

/-- Byte strings: signatures and keys. -/
abbrev Bytes := List Nat

/-- The hash functions behind the HMAC signing methods. -/
inductive Hash where
  | SHA256
  | SHA384
  | SHA512
  deriving DecidableEq, Repr

/-- The signing methods golang-jwt v5 registers in its `init` functions. The
RSA, RSA-PSS, ECDSA and Ed25519 methods are grouped: they differ only in the
asymmetric key type they demand. -/
inductive SigningMethod where
  | HMAC (h : Hash)
  | asymmetric (alg : String)
  | none
  deriving DecidableEq, Repr

/-- Go `jwt.SigningMethodHS256`. -/
def SigningMethodHS256 : SigningMethod := .HMAC .SHA256

/-- Go `SigningMethod.Alg()`. -/
def SigningMethod.Alg : SigningMethod → String
  | .HMAC .SHA256 => "HS256"
  | .HMAC .SHA384 => "HS384"
  | .HMAC .SHA512 => "HS512"
  | .asymmetric alg => alg
  | .none => "none"

/-- Go `jwt.GetSigningMethod`: the registry lookup by the header's `alg`. -/
def GetSigningMethod (alg : String) : Option SigningMethod :=
  if alg = "HS256" then some (.HMAC .SHA256)
  else if alg = "HS384" then some (.HMAC .SHA384)
  else if alg = "HS512" then some (.HMAC .SHA512)
  else if alg ∈ ["RS256", "RS384", "RS512", "PS256", "PS384", "PS512",
      "ES256", "ES384", "ES512", "EdDSA"] then some (.asymmetric alg)
  else if alg = "none" then some .none
  else Option.none

/-- The primitives of the compact token format that are taken as given:
base64url and JSON coding of the three segments, and HMAC. -/
structure JwtPrimitives where
  /-- The header segment written by `SigningString` for a token made by
  `NewWithClaims`: base64url of the JSON object with `typ = "JWT"` and the
  given `alg`. -/
  encodeHeader : String → String
  /-- `DecodeSegment` then `json.Unmarshal` of the header segment: `none` when
  either fails, otherwise the value of `Header["alg"].(string)` (`none` when the
  entry is absent or not a string). -/
  decodeHeader : String → Option (Option String)
  /-- The claims segment: base64url of `json.Marshal(claims)`. -/
  encodeClaims : Claims → String
  /-- `DecodeSegment` then `json.Unmarshal` into `*Claims`; `none` when either
  fails. -/
  decodeClaims : String → Option Claims
  /-- `EncodeSegment` of the signature bytes. -/
  encodeSignature : Bytes → String
  /-- `DecodeSegment` of the signature segment. -/
  decodeSignature : String → Option Bytes
  /-- `hmac.New(h, key)` applied to the signing string. -/
  hmac : Hash → Bytes → String → Bytes

/-- Go `SigningMethod.Verify` with the `[]byte` key the service's key function
returns. The HMAC methods recompute the MAC and compare with `hmac.Equal`
(SHA-256, SHA-384 and SHA-512 are linked into the binary through `net/http`).
Every other method fails its key type assertion: `[]byte` is not an
`*rsa.PublicKey`, `*ecdsa.PublicKey` or `ed25519.PublicKey`, and `none` only
accepts `jwt.UnsafeAllowNoneSignatureType`. -/
def SigningMethod.Verify (P : JwtPrimitives) (m : SigningMethod)
    (signingString : String) (sig : Bytes) (key : Bytes) : Bool :=
  match m with
  | .HMAC h => decide (sig = P.hmac h key signingString)
  | .asymmetric _ => false
  | .none => false

/-- Go `SigningMethodHMAC.Sign` with a `[]byte` key. -/
def SigningMethod.SignHMAC (P : JwtPrimitives) (h : Hash)
    (signingString : String) (key : Bytes) : Bytes :=
  P.hmac h key signingString

/-! ## golang-jwt v5: parsing -/

deriving instance DecidableEq for Except


/-- The error classes of `jwt.Parser.ParseWithClaims`. -/
inductive ParseError where
  | Malformed
  | Unverifiable
  | SignatureInvalid
  | Expired
  | NotValidYet
  deriving DecidableEq, Repr

/-- Go `jwt.Validator.Validate` with the default validator (no leeway, no
expected audience, issuer or subject, `iat` not verified): `exp` and `nbf` are
optional and checked against `now` when present. `Claims` has no `Validate`
method of its own. -/
def Validate (now : Time) (c : Claims) : Except ParseError Unit :=
  let expOk := match c.ExpiresAt with
    | Option.none => true
    | some e => Time.Before now e
  let nbfOk := match c.NotBefore with
    | Option.none => true
    | some n => !Time.Before now n
  if !expOk then .error .Expired
  else if !nbfOk then .error .NotValidYet
  else .ok ()

/-- Go `jwt.ParseWithClaims(tokenString, claims, keyFunc)` on the default
parser (no `WithValidMethods`), with a key function that returns `key` for
every token. `now` is the `time.Now()` reading the validator takes. The result
`ok c` stands for `err == nil && token.Valid` with the claims filled in. -/
def ParseWithClaims (P : JwtPrimitives) (key : Bytes) (now : Time)
    (tokenString : String) : Except ParseError Claims :=
  match Split tokenString with
  | [p0, p1, p2] =>
    match P.decodeHeader p0 with
    | Option.none => .error .Malformed
    | some hdrAlg =>
      match P.decodeClaims p1 with
      | Option.none => .error .Malformed
      | some claims =>
        match hdrAlg with
        | Option.none => .error .Unverifiable
        | some alg =>
          match GetSigningMethod alg with
          | Option.none => .error .Unverifiable
          | some method =>
            match P.decodeSignature p2 with
            | Option.none => .error .Malformed
            | some sig =>
              if method.Verify P (p0 ++ "." ++ p1) sig key then
                match Validate now claims with
                | .error e => .error e
                | .ok _ => .ok claims
              else .error .SignatureInvalid
  | _ => .error .Malformed

/-- Go `jwt.NewWithClaims(method, claims).SignedString(key)` for an HMAC method
and a `[]byte` key. -/
def SignedString (P : JwtPrimitives) (h : Hash) (claims : Claims) (key : Bytes) : String :=
  let sstr := P.encodeHeader (SigningMethod.Alg (.HMAC h)) ++ "." ++ P.encodeClaims claims
  sstr ++ "." ++ P.encodeSignature (SigningMethod.SignHMAC P h sstr key)

/-- The coding laws of the primitives at the token `SignedString P h claims key`:
its three segments decode to what was encoded, and none contains the separator
`.` (base64url has no `.`, and JSON coding returns claims whose dates are whole
seconds unchanged). -/
def JwtPrimitives.CodesToken (P : JwtPrimitives) (h : Hash) (claims : Claims)
    (key : Bytes) : Prop :=
  let hdr := P.encodeHeader (SigningMethod.Alg (.HMAC h))
  let cs := P.encodeClaims claims
  let sig := P.hmac h key (hdr ++ "." ++ cs)
  P.decodeHeader hdr = some (some (SigningMethod.Alg (.HMAC h))) ∧
    P.decodeClaims cs = some claims ∧
    P.decodeSignature (P.encodeSignature sig) = some sig ∧
    '.' ∉ hdr.data ∧ '.' ∉ cs.data ∧ '.' ∉ (P.encodeSignature sig).data

instance (P : JwtPrimitives) (h : Hash) (claims : Claims) (key : Bytes) :
    Decidable (P.CodesToken h claims key) := by
  unfold JwtPrimitives.CodesToken
  exact inferInstance

/-! ## The service (`main.go`) -/

/-- The outcome of `db.QueryRow(...).Scan(...)` on the `users` table: the row,
`sql.ErrNoRows`, or any other error (connection lost, scan failure, ...). -/
inductive QueryResult where
  | row (u : User)
  | ErrNoRows
  | failed (msg : String)
  deriving DecidableEq, Repr

/-- What the handlers read from the process and its collaborators. -/
structure Env where
  /-- The token format primitives of golang-jwt. -/
  P : JwtPrimitives
  /-- The float step of `time.ParseDuration`. -/
  frac : Nat → Nat → Nat → Nat
  /-- The global `jwtSecret`. -/
  jwtSecret : Bytes
  /-- The value of `os.Getenv("JWT_EXPIRY")`; empty when unset. -/
  JWT_EXPIRY : String
  /-- The query `SELECT ... FROM users WHERE email = $1`. -/
  usersByEmail : String → QueryResult
  /-- The query `SELECT ... FROM users WHERE id = $1`. -/
  usersById : Int → QueryResult
  /-- Whether `bcrypt.CompareHashAndPassword(hash, password)` returns `nil`. -/
  CompareHashAndPassword : String → String → Bool

/-- The part of an `*http.Request` the handlers look at. -/
structure Request where
  /-- The field `r.Method`. -/
  Method : String
  /-- The value of `r.Header.Get("Authorization")`; empty when absent. -/
  Authorization : String
  /-- The result of decoding `r.Body` as a `LoginRequest`; `none` on error. -/
  LoginBody : Option LoginRequest
  deriving DecidableEq, Repr

/-- The `TokenResponse` of `main.go`. -/
structure TokenResponse where
  Token : String
  ExpiresAt : Time
  User : User
  deriving DecidableEq, Repr

/-- What a handler writes. -/
inductive Response where
  /-- The call `http.Error(w, body, status)`. -/
  | error (body : String) (status : Nat)
  /-- Status 200 with the JSON object of `verifyHandler`. -/
  | verified (valid : Bool) (user_id : Int) (email : String) (role : String)
  /-- Status 200 with a JSON `TokenResponse`. -/
  | token (t : TokenResponse)
  deriving DecidableEq, Repr

/-- Lines 310-318 of `generateToken`: the lifetime taken from `JWT_EXPIRY`. -/
def tokenLifetime (env : Env) : Duration :=
  let expiryStr := if env.JWT_EXPIRY = "" then "24h" else env.JWT_EXPIRY
  match ParseDuration env.frac expiryStr with
  | some expiry => expiry
  | none => 24 * Hour

/-- Lines 320-331 of `generateToken`: the claims. `t1` is the `time.Now()`
reading of line 320 and `t2` the one of line 328. -/
def tokenClaims (env : Env) (t1 t2 : Time) (user : User) : Claims :=
  let expiresAt := Time.Add t1 (tokenLifetime env)
  { UserID := user.ID
    Email := user.Email
    Role := user.Role
    ExpiresAt := NewNumericDate expiresAt
    IssuedAt := NewNumericDate t2
    Issuer := "openbricks-auth"
    Subject := ""
    Audience := []
    NotBefore := Option.none
    ID := "" }

/-- The function `generateToken`: the signed token and `expiresAt`. Signing
with HS256 and a `[]byte` key has no failing path, so the result is always
`ok`; the error type is kept for the handlers' `err != nil` branches. -/
def generateToken (env : Env) (t1 t2 : Time) (user : User) :
    Except String (String × Time) :=
  let expiresAt := Time.Add t1 (tokenLifetime env)
  let claims := tokenClaims env t1 t2 user
  .ok (SignedString env.P .SHA256 claims env.jwtSecret, expiresAt)

/-- The handler `loginHandler`. `t1 t2` are the clock readings `generateToken`
takes. -/
def loginHandler (env : Env) (t1 t2 : Time) (r : Request) : Response :=
  if r.Method ≠ "POST" then .error "\x7b\"error\":\"method not allowed\"\x7d" 405
  else
    match r.LoginBody with
    | none => .error "\x7b\"error\":\"invalid request body\"\x7d" 400
    | some req =>
      match env.usersByEmail req.Email with
      | .ErrNoRows => .error "\x7b\"error\":\"invalid credentials\"\x7d" 401
      | .failed _ => .error "\x7b\"error\":\"internal server error\"\x7d" 500
      | .row user =>
        if !env.CompareHashAndPassword user.Password req.Password then
          .error "\x7b\"error\":\"invalid credentials\"\x7d" 401
        else
          match generateToken env t1 t2 user with
          | .error _ => .error "\x7b\"error\":\"failed to generate token\"\x7d" 500
          | .ok (token, expiresAt) => .token ⟨token, expiresAt, user⟩

/-- The handler `verifyHandler`. `now` is the clock reading of the token
validator. -/
def verifyHandler (env : Env) (now : Time) (r : Request) : Response :=
  if r.Method ≠ "GET" then .error "\x7b\"error\":\"method not allowed\"\x7d" 405
  else
    let authHeader := r.Authorization
    if authHeader = "" then .error "\x7b\"error\":\"authorization header required\"\x7d" 401
    else
      let tokenString := TrimPrefix authHeader "Bearer "
      if tokenString = authHeader then
        .error "\x7b\"error\":\"invalid authorization header format\"\x7d" 401
      else
        match ParseWithClaims env.P env.jwtSecret now tokenString with
        | .error _ => .error "\x7b\"error\":\"invalid or expired token\"\x7d" 401
        | .ok claims => .verified true claims.UserID claims.Email claims.Role

/-- The handler `refreshHandler`. `now` is the clock reading of the token
validator, `t1 t2` the readings `generateToken` takes. The query by id does not
select the password, so `user.Password` keeps its zero value. -/
def refreshHandler (env : Env) (now t1 t2 : Time) (r : Request) : Response :=
  if r.Method ≠ "POST" then .error "\x7b\"error\":\"method not allowed\"\x7d" 405
  else
    let authHeader := r.Authorization
    if authHeader = "" then .error "\x7b\"error\":\"authorization header required\"\x7d" 401
    else
      let tokenString := TrimPrefix authHeader "Bearer "
      match ParseWithClaims env.P env.jwtSecret now tokenString with
      | .error _ => .error "\x7b\"error\":\"invalid or expired token\"\x7d" 401
      | .ok claims =>
        match env.usersById claims.UserID with
        | .ErrNoRows => .error "\x7b\"error\":\"user not found\"\x7d" 401
        | .failed _ => .error "\x7b\"error\":\"user not found\"\x7d" 401
        | .row u =>
          let user := { u with Password := "" }
          match generateToken env t1 t2 user with
          | .error _ => .error "\x7b\"error\":\"failed to generate token\"\x7d" 500
          | .ok (newToken, expiresAt) => .token ⟨newToken, expiresAt, user⟩

/-! ## A concrete instance of the primitives

A small injective coding used to evaluate the service on concrete requests:
every character of a text field is shifted out of the ASCII range, numbers are
written in decimal, fields are separated by `;`, and the MAC is a keyed
checksum tagged with the hash function. -/

/-- A text field, shifted out of ASCII. -/
def sampleText (s : String) : List Char :=
  s.data.map (fun c => Char.ofNat (c.toNat + 256))

/-- Inverse of `sampleText`. -/
def sampleUntext (cs : List Char) : String :=
  String.mk (cs.map (fun c => Char.ofNat (c.toNat - 256)))

/-- An integer field: a sign letter and the decimal digits. -/
def sampleInt (i : Int) : List Char :=
  (if i < 0 then 'm' else 'p') :: Nat.toDigits 10 i.natAbs

/-- Decimal digits to a number. -/
def sampleUnnat (cs : List Char) : Option Nat :=
  if cs.length = 0 || !cs.all isDigit then Option.none
  else some (cs.foldl (fun acc c => acc * 10 + (c.toNat - '0'.toNat)) 0)

/-- Inverse of `sampleInt`. -/
def sampleUnint : List Char → Option Int
  | 'p' :: ds => (sampleUnnat ds).map (fun n => (n : Int))
  | 'm' :: ds => (sampleUnnat ds).map (fun n => -(n : Int))
  | _ => Option.none

/-- An optional date field. -/
def sampleDate : Option Time → List Char
  | Option.none => ['n']
  | some t => 's' :: sampleInt t

/-- Inverse of `sampleDate`. -/
def sampleUndate : List Char → Option (Option Time)
  | ['n'] => some Option.none
  | 's' :: r => (sampleUnint r).map some
  | _ => Option.none

/-- The claims segment of the sample coding. -/
def sampleEncodeClaims (c : Claims) : String :=
  String.mk (List.intercalate [';']
    [sampleInt c.UserID, sampleText c.Email, sampleText c.Role, sampleText c.Issuer,
      sampleText c.Subject, List.intercalate [','] (c.Audience.map sampleText),
      sampleDate c.ExpiresAt, sampleDate c.NotBefore, sampleDate c.IssuedAt,
      sampleText c.ID])

/-- Inverse of `sampleEncodeClaims`. -/
def sampleDecodeClaims (s : String) : Option Claims :=
  match splitChars ';' s.data with
  | [uid, email, role, iss, sub, aud, exp, nbf, iat, jti] =>
    match sampleUnint uid, sampleUndate exp, sampleUndate nbf, sampleUndate iat with
    | some u, some e, some n, some i =>
      some
        { UserID := u
          Email := sampleUntext email
          Role := sampleUntext role
          Issuer := sampleUntext iss
          Subject := sampleUntext sub
          Audience := if aud.length = 0 then [] else (splitChars ',' aud).map sampleUntext
          ExpiresAt := e
          NotBefore := n
          IssuedAt := i
          ID := sampleUntext jti }
    | _, _, _, _ => Option.none
  | _ => Option.none

/-- The tag byte of a hash function in the sample MAC. -/
def sampleHashTag : Hash → Nat
  | .SHA256 => 65
  | .SHA384 => 66
  | .SHA512 => 67

/-- The sample primitives. -/
def samplePrimitives : JwtPrimitives where
  encodeHeader alg := "h" ++ alg
  decodeHeader s :=
    match s.data with
    | 'h' :: r => some (some (String.mk r))
    | ['x'] => some Option.none
    | _ => Option.none
  encodeClaims := sampleEncodeClaims
  decodeClaims := sampleDecodeClaims
  encodeSignature b := String.mk (b.map Char.ofNat)
  decodeSignature s :=
    if s.data.all Char.isAlphanum then some (s.data.map Char.toNat) else Option.none
  hmac h key msg := [sampleHashTag h, 97 + (key.sum + (msg.data.map Char.toNat).sum) % 26]

/-- A users table with one row, whose role is `admin`. -/
def sampleUser : User :=
  ⟨7, "a@b.com", "$2a$10$hash", "A", "admin", 1700000000000000000⟩

/-- A sample environment: `JWT_EXPIRY` unset, one user, and a password check
that accepts exactly `pw123456`. -/
def sampleEnv : Env where
  P := samplePrimitives
  frac := fun _ _ _ => 0
  jwtSecret := [115, 51, 99, 114, 51, 116]
  JWT_EXPIRY := ""
  usersByEmail := fun e =>
    if e = "a@b.com" then .row sampleUser
    else if e = "down@b.com" then .failed "connection refused"
    else .ErrNoRows
  usersById := fun i =>
    if i = 7 then .row sampleUser
    else if i = 8 then .failed "connection refused"
    else .ErrNoRows
  CompareHashAndPassword := fun h p => h == "$2a$10$hash" && p == "pw123456"

/-- The sample environment with `JWT_EXPIRY` set to `s`. -/
def sampleEnvExpiry (s : String) : Env := { sampleEnv with JWT_EXPIRY := s }

/-- The first clock reading of a sample issuance. -/
def sampleT1 : Time := 1700000000500000000

/-- The second clock reading of a sample issuance. -/
def sampleT2 : Time := 1700000000600000000

/-- A clock reading shortly after the sample issuance. -/
def sampleNow : Time := 1700000001000000000

/-- A clock reading more than 24 hours after the sample issuance. -/
def sampleLate : Time := 1700090000000000000

/-- The token the sample environment's secret and the HMAC method over `h`
give for the claims `generateToken` builds for `u`. -/
def sampleToken (h : Hash) (u : User) : String :=
  SignedString samplePrimitives h (tokenClaims sampleEnv sampleT1 sampleT2 u)
    sampleEnv.jwtSecret

/-! ## Strings: basic facts -/

theorem hasPrefix_iff (s pre : String) :
    HasPrefix s pre = true ↔ ∃ t : String, s = pre ++ t := by
  unfold HasPrefix
  rw [List.isPrefixOf_iff_prefix]
  constructor
  · rintro ⟨r, hr⟩
    exact ⟨String.mk r, by apply String.ext; simp [hr]⟩
  · rintro ⟨t, rfl⟩
    exact ⟨t.data, by simp⟩

theorem trimPrefix_append (pre t : String) : TrimPrefix (pre ++ t) pre = t := by
  have h : HasPrefix (pre ++ t) pre = true := (hasPrefix_iff _ _).2 ⟨t, rfl⟩
  unfold TrimPrefix
  rw [if_pos h]
  apply String.ext
  simp

theorem trimPrefix_eq_self_iff (s pre : String) (hpre : pre ≠ "") :
    TrimPrefix s pre = s ↔ HasPrefix s pre = false := by
  constructor
  · intro h
    by_contra hc
    have hp : HasPrefix s pre = true := by simpa using hc
    obtain ⟨t, rfl⟩ := (hasPrefix_iff _ _).1 hp
    rw [trimPrefix_append] at h
    have hl := congrArg String.length h
    simp at hl
    apply hpre
    apply String.ext
    exact List.length_eq_zero.1 hl
  · intro h
    unfold TrimPrefix
    simp [h]

theorem bearer_ne_empty : ("Bearer " : String) ≠ "" := by decide

theorem bearer_append_ne_empty (t : String) : "Bearer " ++ t ≠ "" := by
  intro h
  have hl := congrArg String.length h
  simp at hl
  exact absurd hl.1 (by decide)

theorem trimPrefix_bearer_ne (t : String) :
    TrimPrefix ("Bearer " ++ t) "Bearer " ≠ "Bearer " ++ t := by
  intro h
  have h2 := (trimPrefix_eq_self_iff _ _ bearer_ne_empty).1 h
  rw [(hasPrefix_iff _ _).2 ⟨t, rfl⟩] at h2
  exact Bool.noConfusion h2

theorem not_bearer_iff (h : String) :
    (¬ ∃ t : String, h = "Bearer " ++ t) ↔ TrimPrefix h "Bearer " = h := by
  rw [trimPrefix_eq_self_iff _ _ bearer_ne_empty, ← hasPrefix_iff]
  simp

/-! ## `time.ParseDuration`: the default -/

theorem parseDuration_default (frac : Nat → Nat → Nat → Nat) :
    ParseDuration frac "24h" = some (24 * Hour) :=
  of_decide_eq_true (Eq.refl true)

/-! ## `verifyHandler`: unfolding by cases -/

theorem verifyHandler_empty (env : Env) (now : Time) (b : Option LoginRequest) :
    verifyHandler env now ⟨"GET", "", b⟩ =
      .error "\x7b\"error\":\"authorization header required\"\x7d" 401 := by
  simp [verifyHandler]

theorem verifyHandler_no_bearer (env : Env) (now : Time) (h : String)
    (b : Option LoginRequest) (hne : h ≠ "") (hp : TrimPrefix h "Bearer " = h) :
    verifyHandler env now ⟨"GET", h, b⟩ =
      .error "\x7b\"error\":\"invalid authorization header format\"\x7d" 401 := by
  simp [verifyHandler, hne, hp]

theorem verifyHandler_bearer (env : Env) (now : Time) (t : String)
    (b : Option LoginRequest) :
    verifyHandler env now ⟨"GET", "Bearer " ++ t, b⟩ =
      match ParseWithClaims env.P env.jwtSecret now t with
      | .error _ => .error "\x7b\"error\":\"invalid or expired token\"\x7d" 401
      | .ok claims => .verified true claims.UserID claims.Email claims.Role := by
  have h1 := bearer_append_ne_empty t
  have h2 := trimPrefix_bearer_ne t
  have h3 := trimPrefix_append "Bearer " t
  simp only [verifyHandler]
  rw [if_neg (by simp), if_neg h1, if_neg h2, h3]

/-! ## Header check of `verifyHandler` -/

/-- C3: on a GET request `verifyHandler` answers with one of its two 401 header
errors exactly when the Authorization value is empty or does not start with
`Bearer `; in that case the answer does not depend on the token primitives,
the secret, the clock or anything else of the environment (nothing is decoded);
and for a value `Bearer ` followed by `t` the string handed to
`jwt.ParseWithClaims` is exactly `t`. -/
theorem verifyHandler_header_check (env : Env) (now : Time) (h : String)
    (b : Option LoginRequest) :
    ((verifyHandler env now ⟨"GET", h, b⟩ =
          .error "\x7b\"error\":\"authorization header required\"\x7d" 401 ∨
        verifyHandler env now ⟨"GET", h, b⟩ =
          .error "\x7b\"error\":\"invalid authorization header format\"\x7d" 401) ↔
      (h = "" ∨ ¬ ∃ t : String, h = "Bearer " ++ t)) ∧
    ((h = "" ∨ ¬ ∃ t : String, h = "Bearer " ++ t) →
      ∀ (env' : Env) (now' : Time),
        verifyHandler env' now' ⟨"GET", h, b⟩ = verifyHandler env now ⟨"GET", h, b⟩) ∧
    (∀ t : String, h = "Bearer " ++ t →
      verifyHandler env now ⟨"GET", h, b⟩ =
        match ParseWithClaims env.P env.jwtSecret now t with
        | .error _ => .error "\x7b\"error\":\"invalid or expired token\"\x7d" 401
        | .ok claims => .verified true claims.UserID claims.Email claims.Role) := by
  refine ⟨⟨?_, ?_⟩, ?_, ?_⟩
  · intro hr
    by_contra hc
    push_neg at hc
    obtain ⟨_, t, rfl⟩ := hc
    rw [verifyHandler_bearer] at hr
    cases hp : ParseWithClaims env.P env.jwtSecret now t with
    | error e =>
      rw [hp] at hr
      rcases hr with hr | hr
      · injection hr with h1 _
        exact absurd h1 (by decide)
      · injection hr with h1 _
        exact absurd h1 (by decide)
    | ok c =>
      rw [hp] at hr
      rcases hr with hr | hr <;> exact Response.noConfusion hr
  · rintro (rfl | hn)
    · exact Or.inl (verifyHandler_empty env now b)
    · by_cases he : h = ""
      · subst he
        exact Or.inl (verifyHandler_empty env now b)
      · exact Or.inr (verifyHandler_no_bearer env now h b he ((not_bearer_iff h).1 hn))
  · rintro (rfl | hn) env' now'
    · rw [verifyHandler_empty, verifyHandler_empty]
    · by_cases he : h = ""
      · subst he
        rw [verifyHandler_empty, verifyHandler_empty]
      · rw [verifyHandler_no_bearer env' now' h b he ((not_bearer_iff h).1 hn),
          verifyHandler_no_bearer env now h b he ((not_bearer_iff h).1 hn)]
  · rintro t rfl
    exact verifyHandler_bearer env now t b

/-! ## Login -/

/-- C6: for a POST login request whose body decodes, the response when the
email is not in the store (`env₁`) and the response when the email is stored
but the password check fails (`env₂`) are the same: status 401 with the body
`invalid credentials`. -/
theorem login_no_user_enumeration (env₁ env₂ : Env) (t1 t2 t1' t2' : Time)
    (auth : String) (req : LoginRequest) (u : User)
    (h₁ : env₁.usersByEmail req.Email = .ErrNoRows)
    (h₂ : env₂.usersByEmail req.Email = .row u)
    (h₃ : env₂.CompareHashAndPassword u.Password req.Password = false) :
    loginHandler env₁ t1 t2 ⟨"POST", auth, some req⟩ =
        .error "\x7b\"error\":\"invalid credentials\"\x7d" 401 ∧
      loginHandler env₂ t1' t2' ⟨"POST", auth, some req⟩ =
        loginHandler env₁ t1 t2 ⟨"POST", auth, some req⟩ := by
  constructor
  · simp [loginHandler, h₁]
  · simp [loginHandler, h₁, h₂, h₃]

/-! ## Decode failures -/

/-- C7: whenever `jwt.ParseWithClaims` fails on `t`, for whatever reason,
`verifyHandler` on the header `Bearer ` followed by `t` answers 401 with the
body `invalid or expired token`, a response that carries no claims and does
not mention the reason. -/
theorem verifyHandler_decode_failure (env : Env) (now : Time) (t : String)
    (b : Option LoginRequest) (e : ParseError)
    (h : ParseWithClaims env.P env.jwtSecret now t = .error e) :
    verifyHandler env now ⟨"GET", "Bearer " ++ t, b⟩ =
      .error "\x7b\"error\":\"invalid or expired token\"\x7d" 401 := by
  rw [verifyHandler_bearer, h]

/-! ## Token lifetime -/

/-- C10: `generateToken` applies a lifetime of 24 hours when `JWT_EXPIRY` is
empty or unset, 24 hours when it does not parse as a duration, and the parsed
duration otherwise; it always succeeds, and the `expiresAt` it returns is the
first clock reading plus that lifetime. -/
theorem generateToken_lifetime (env : Env) (t1 t2 : Time) (user : User) :
    (env.JWT_EXPIRY = "" → tokenLifetime env = 24 * Hour) ∧
    (ParseDuration env.frac env.JWT_EXPIRY = none → tokenLifetime env = 24 * Hour) ∧
    (∀ d : Duration, env.JWT_EXPIRY ≠ "" →
      ParseDuration env.frac env.JWT_EXPIRY = some d → tokenLifetime env = d) ∧
    (∃ token : String,
      generateToken env t1 t2 user = .ok (token, t1 + tokenLifetime env)) := by
  refine ⟨?_, ?_, ?_, ?_⟩
  · intro h
    simp only [tokenLifetime, h, if_true, parseDuration_default]
  · intro h
    by_cases he : env.JWT_EXPIRY = ""
    · simp only [tokenLifetime, he, if_true, parseDuration_default]
    · simp only [tokenLifetime, he, if_false, h]
  · intro d he h
    simp only [tokenLifetime, he, if_false, h]
  · exact ⟨_, rfl⟩

/-! ## Parsing a signed token -/

theorem splitChars_no_sep (sep : Char) (l : List Char) (h : sep ∉ l) :
    splitChars sep l = [l] := by
  induction l with
  | nil => rfl
  | cons c cs ih =>
    have hc : c ≠ sep := fun e => h (by simp [e])
    have hcs : sep ∉ cs := fun e => h (by simp [e])
    simp [splitChars, hc, ih hcs]

theorem splitChars_append (sep : Char) (a b : List Char) (h : sep ∉ a) :
    splitChars sep (a ++ sep :: b) = a :: splitChars sep b := by
  induction a with
  | nil => simp [splitChars]
  | cons c cs ih =>
    have hc : c ≠ sep := fun e => h (by simp [e])
    have hcs : sep ∉ cs := fun e => h (by simp [e])
    simp [splitChars, hc, ih hcs]

theorem split_three (x y z : String) (hx : '.' ∉ x.data) (hy : '.' ∉ y.data)
    (hz : '.' ∉ z.data) : Split (x ++ "." ++ y ++ "." ++ z) = [x, y, z] := by
  have hd : (x ++ "." ++ y ++ "." ++ z).data = x.data ++ '.' :: (y.data ++ '.' :: z.data) := by
    simp [String.data_append]
  unfold Split
  rw [hd, splitChars_append _ _ _ hx, splitChars_append _ _ _ hy, splitChars_no_sep _ _ hz]
  rfl

theorem getSigningMethod_alg (h : Hash) :
    GetSigningMethod (SigningMethod.Alg (.HMAC h)) = some (.HMAC h) := by
  cases h <;> decide

theorem getSigningMethod_hmac (alg : String) (h : Hash)
    (hm : GetSigningMethod alg = some (.HMAC h)) : alg = SigningMethod.Alg (.HMAC h) := by
  unfold GetSigningMethod at hm
  split at hm
  · cases hm; assumption
  · split at hm
    · cases hm; assumption
    · split at hm
      · cases hm; assumption
      · split at hm
        · cases hm
        · split at hm
          · cases hm
          · cases hm

theorem parse_signed (P : JwtPrimitives) (key : Bytes) (now : Time) (h : Hash)
    (c : Claims) (hc : P.CodesToken h c key) :
    ParseWithClaims P key now (SignedString P h c key) =
      match Validate now c with
      | .error e => .error e
      | .ok _ => .ok c := by
  obtain ⟨h1, h2, h3, h4, h5, h6⟩ := hc
  simp only [ParseWithClaims, SignedString, SigningMethod.SignHMAC]
  rw [split_three _ _ _ h4 h5 h6]
  simp only [h1, h2, h3, getSigningMethod_alg, SigningMethod.Verify, decide_True, if_true]

theorem parse_ok_inv (P : JwtPrimitives) (key : Bytes) (now : Time) (t : String)
    (c : Claims) (hp : ParseWithClaims P key now t = .ok c) :
    ∃ (p0 p1 p2 : String) (h : Hash),
      Split t = [p0, p1, p2] ∧
      P.decodeHeader p0 = some (some (SigningMethod.Alg (.HMAC h))) ∧
      P.decodeClaims p1 = some c ∧
      P.decodeSignature p2 = some (P.hmac h key (p0 ++ "." ++ p1)) ∧
      Validate now c = .ok () := by
  unfold ParseWithClaims at hp
  split at hp
  next p0 p1 p2 hs =>
    split at hp
    · cases hp
    next hdrAlg hh =>
      split at hp
      · cases hp
      next claims hcl =>
        split at hp
        · cases hp
        next alg =>
          split at hp
          · cases hp
          next method hm =>
            split at hp
            · cases hp
            next sig hsig =>
              split at hp
              next hv =>
                split at hp
                · cases hp
                next u hval =>
                  cases hp
                  cases method with
                  | HMAC h =>
                    refine ⟨p0, p1, p2, h, hs, ?_, hcl, ?_, ?_⟩
                    · rw [hh, getSigningMethod_hmac alg h hm]
                    · simp only [SigningMethod.Verify, decide_eq_true_eq] at hv
                      rw [hsig, hv]
                    · rw [hval]
                  | asymmetric a => simp [SigningMethod.Verify] at hv
                  | none => simp [SigningMethod.Verify] at hv
              · cases hp
  · cases hp

/-! ## Algorithm acceptance of the decode step -/

set_option maxRecDepth 100000 in
/-- C1, counterexample: in the sample environment a token whose header asserts
`HS384` and whose signature is the HMAC-SHA384 of the server secret is accepted
by `verifyHandler` and by `refreshHandler`. -/
theorem decode_accepts_hs384 :
    samplePrimitives.decodeHeader ((Split (sampleToken .SHA384 sampleUser)).headD "") =
        some (some "HS384") ∧
      verifyHandler sampleEnv sampleNow
          ⟨"GET", "Bearer " ++ sampleToken .SHA384 sampleUser, none⟩ =
        .verified true 7 "a@b.com" "admin" ∧
      refreshHandler sampleEnv sampleNow sampleT1 sampleT2
          ⟨"POST", "Bearer " ++ sampleToken .SHA384 sampleUser, none⟩ =
        .token ⟨sampleToken .SHA256 { sampleUser with Password := "" }, sampleT1 + 24 * Hour,
          { sampleUser with Password := "" }⟩ := by
  decide

/-- C1, amended: the decode step of `verifyHandler` and `refreshHandler`,
`jwt.ParseWithClaims` with the server secret as key, accepts a token only if
its header asserts `HS256`, `HS384` or `HS512` and its signature is the HMAC of
the signing string under the server secret for the asserted hash; every other
asserted algorithm is rejected. It does accept each of the three: a token
signed by any of them over claims that pass validation decodes to its claims. -/
theorem decode_accepts_hmac_family (P : JwtPrimitives) (key : Bytes) (now : Time) :
    (∀ (t : String) (c : Claims), ParseWithClaims P key now t = .ok c →
      ∃ (p0 p1 p2 : String) (h : Hash),
        Split t = [p0, p1, p2] ∧
        SigningMethod.Alg (.HMAC h) ∈ ["HS256", "HS384", "HS512"] ∧
        P.decodeHeader p0 = some (some (SigningMethod.Alg (.HMAC h))) ∧
        P.decodeSignature p2 = some (P.hmac h key (p0 ++ "." ++ p1))) ∧
    (∀ (h : Hash) (c : Claims), P.CodesToken h c key → Validate now c = .ok () →
      ParseWithClaims P key now (SignedString P h c key) = .ok c) := by
  constructor
  · intro t c hp
    obtain ⟨p0, p1, p2, h, hs, hh, _, hsig, _⟩ := parse_ok_inv P key now t c hp
    exact ⟨p0, p1, p2, h, hs, by cases h <;> decide, hh, hsig⟩
  · intro h c hc hv
    rw [parse_signed P key now h c hc, hv]

set_option maxRecDepth 100000 in
/-- C1, witness: the sample HS512 token meets the coding laws and passes
validation, and is accepted. -/
theorem decode_accepts_hmac_family_witness :
    samplePrimitives.CodesToken .SHA512 (tokenClaims sampleEnv sampleT1 sampleT2 sampleUser)
        sampleEnv.jwtSecret ∧
      ParseWithClaims samplePrimitives sampleEnv.jwtSecret sampleNow
          (sampleToken .SHA512 sampleUser) =
        .ok (tokenClaims sampleEnv sampleT1 sampleT2 sampleUser) :=
  ⟨by decide,
    (decode_accepts_hmac_family samplePrimitives sampleEnv.jwtSecret sampleNow).2 .SHA512
      (tokenClaims sampleEnv sampleT1 sampleT2 sampleUser) (by decide) (by decide)⟩

/-! ## Refresh and the header check -/

set_option maxRecDepth 100000 in
/-- C2, failing input: the Authorization value is a valid token without the
`Bearer ` scheme. `verifyHandler` rejects it as a malformed header;
`refreshHandler` decodes it and issues a new token. -/
theorem refresh_skips_scheme_check :
    verifyHandler sampleEnv sampleNow ⟨"GET", sampleToken .SHA256 sampleUser, none⟩ =
        .error "\x7b\"error\":\"invalid authorization header format\"\x7d" 401 ∧
      refreshHandler sampleEnv sampleNow sampleT1 sampleT2
          ⟨"POST", sampleToken .SHA256 sampleUser, none⟩ =
        .token ⟨sampleToken .SHA256 { sampleUser with Password := "" }, sampleT1 + 24 * Hour,
          { sampleUser with Password := "" }⟩ := by
  decide

set_option maxRecDepth 100000 in
/-- C9, failing input: a refresh with a valid token for user 8 while the store
lookup fails with a connection error. `refreshHandler` answers 401
`user not found`, the same as for the absent user 9; `loginHandler` answers the
same kind of store failure with 500 `internal server error`. -/
theorem refresh_store_failure_as_not_found :
    sampleEnv.usersById 8 = .failed "connection refused" ∧
      refreshHandler sampleEnv sampleNow sampleT1 sampleT2
          ⟨"POST", "Bearer " ++ sampleToken .SHA256 { sampleUser with ID := 8 }, none⟩ =
        .error "\x7b\"error\":\"user not found\"\x7d" 401 ∧
      sampleEnv.usersById 9 = .ErrNoRows ∧
      refreshHandler sampleEnv sampleNow sampleT1 sampleT2
          ⟨"POST", "Bearer " ++ sampleToken .SHA256 { sampleUser with ID := 9 }, none⟩ =
        .error "\x7b\"error\":\"user not found\"\x7d" 401 ∧
      sampleEnv.usersByEmail "down@b.com" = .failed "connection refused" ∧
      loginHandler sampleEnv sampleT1 sampleT2
          ⟨"POST", "", some ⟨"down@b.com", "pw123456"⟩⟩ =
        .error "\x7b\"error\":\"internal server error\"\x7d" 500 := by
  decide

/-- No request makes `refreshHandler` answer with the header format error of
`verifyHandler`. -/
theorem refreshHandler_never_format_error (env : Env) (now t1 t2 : Time) (r : Request) :
    refreshHandler env now t1 t2 r ≠
      .error "\x7b\"error\":\"invalid authorization header format\"\x7d" 401 := by
  intro h
  simp only [refreshHandler, generateToken] at h
  split at h
  · injection h with h1 _
    exact absurd h1 (by decide)
  · split at h
    · injection h with h1 _
      exact absurd h1 (by decide)
    · split at h
      · injection h with h1 _
        exact absurd h1 (by decide)
      · split at h
        · injection h with h1 _
          exact absurd h1 (by decide)
        · injection h with h1 _
          exact absurd h1 (by decide)
        · exact Response.noConfusion h

/-- Every failure of the users query, not only `sql.ErrNoRows`, makes
`refreshHandler` answer `user not found`. -/
theorem refreshHandler_store_error (env : Env) (now t1 t2 : Time) (h : String)
    (b : Option LoginRequest) (c : Claims) (msg : String) (hne : h ≠ "")
    (hparse : ParseWithClaims env.P env.jwtSecret now (TrimPrefix h "Bearer ") = .ok c)
    (hrow : env.usersById c.UserID = .failed msg) :
    refreshHandler env now t1 t2 ⟨"POST", h, b⟩ =
      .error "\x7b\"error\":\"user not found\"\x7d" 401 := by
  simp only [refreshHandler]
  rw [if_neg (by simp), if_neg hne]
  simp only [hparse, hrow]

/-! ## Claims times -/

theorem truncateSecond_lt (a b : Int) (h : a + Second ≤ b) :
    Time.TruncateSecond a < Time.TruncateSecond b := by
  have h' : a + 1000000000 ≤ b := h
  show (a / 1000000000 * 1000000000 : Int) < b / 1000000000 * 1000000000
  omega

theorem truncateSecond_add (a b k : Int)
    (h : Time.TruncateSecond a = Time.TruncateSecond b) :
    Time.TruncateSecond (a + Second * k) - Time.TruncateSecond b = Second * k := by
  have h' : (a / 1000000000 * 1000000000 : Int) = b / 1000000000 * 1000000000 := h
  show ((a + 1000000000 * k) / 1000000000 * 1000000000 : Int) - b / 1000000000 * 1000000000 =
    1000000000 * k
  omega

/-- C4, counterexample: with `JWT_EXPIRY` set to `-1h` the claims expire an
hour before they are issued; with `0` both dates are equal; and with the
default lifetime and clock readings in different seconds the difference is
not the lifetime. -/
theorem claims_expiry_not_after_issue :
    ((tokenClaims (sampleEnvExpiry "-1h") sampleT1 sampleT1 sampleUser).ExpiresAt =
        some 1699996400000000000 ∧
      (tokenClaims (sampleEnvExpiry "-1h") sampleT1 sampleT1 sampleUser).IssuedAt =
        some 1700000000000000000) ∧
    ((tokenClaims (sampleEnvExpiry "0") sampleT1 sampleT1 sampleUser).ExpiresAt =
        some 1700000000000000000 ∧
      (tokenClaims (sampleEnvExpiry "0") sampleT1 sampleT1 sampleUser).IssuedAt =
        some 1700000000000000000) ∧
    (tokenLifetime sampleEnv = 86400000000000 ∧
      (tokenClaims sampleEnv sampleT1 sampleNow sampleUser).ExpiresAt =
        some 1700086400000000000 ∧
      (tokenClaims sampleEnv sampleT1 sampleNow sampleUser).IssuedAt =
        some 1700000001000000000) := by
  decide

/-- C4, amended: for every identity, clock readings `t1` (line 320) and `t2`
(line 328) and `JWT_EXPIRY` setting, the claims carry `issued_at = t2` and
`expires_at = t1 + lifetime`, each truncated to the whole second; `expires_at`
is strictly after `issued_at` whenever `t1 + lifetime` is at least one second
after `t2`; and their difference is exactly the lifetime when the lifetime is a
whole number of seconds and both readings fall in the same second. -/
theorem claims_time_relation (env : Env) (t1 t2 : Time) (user : User) :
    (tokenClaims env t1 t2 user).IssuedAt = some (Time.TruncateSecond t2) ∧
    (tokenClaims env t1 t2 user).ExpiresAt =
      some (Time.TruncateSecond (t1 + tokenLifetime env)) ∧
    (t2 + Second ≤ t1 + tokenLifetime env →
      Time.TruncateSecond t2 < Time.TruncateSecond (t1 + tokenLifetime env)) ∧
    (Second ∣ tokenLifetime env → Time.TruncateSecond t1 = Time.TruncateSecond t2 →
      Time.TruncateSecond (t1 + tokenLifetime env) - Time.TruncateSecond t2 =
        tokenLifetime env) := by
  refine ⟨rfl, rfl, truncateSecond_lt _ _, ?_⟩
  rintro ⟨k, hk⟩ ht
  rw [hk]
  exact truncateSecond_add t1 t2 k ht

/-- C4, witness: the default lifetime with both readings in the same second. -/
theorem claims_time_relation_witness :
    Time.TruncateSecond sampleT2 < Time.TruncateSecond (sampleT1 + tokenLifetime sampleEnv) ∧
      Time.TruncateSecond (sampleT1 + tokenLifetime sampleEnv) - Time.TruncateSecond sampleT2 =
        tokenLifetime sampleEnv :=
  ⟨(claims_time_relation sampleEnv sampleT1 sampleT2 sampleUser).2.2.1 (by decide),
    (claims_time_relation sampleEnv sampleT1 sampleT2 sampleUser).2.2.2
      ⟨86400, by decide⟩ (by decide)⟩

/-! ## Issue, then validate -/

/-- C5: if `generateToken` returns the token `T` for the identity `u`, the
primitives code that token faithfully, and the validator's clock reading is
before the token's `expires_at`, then `verifyHandler` on `Bearer ` followed by
`T` under the same secret answers `valid = true` with `u.ID`, `u.Email` and
`u.Role`, and the decoded claims are the encoded ones, whose dates are the
issuance dates truncated to whole seconds. -/
theorem issue_validate_roundtrip (env : Env) (u : User) (t1 t2 now : Time)
    (b : Option LoginRequest) (T : String) (expiresAt : Time)
    (hgen : generateToken env t1 t2 u = .ok (T, expiresAt))
    (hcode : env.P.CodesToken .SHA256 (tokenClaims env t1 t2 u) env.jwtSecret)
    (hnow : now < Time.TruncateSecond (t1 + tokenLifetime env)) :
    verifyHandler env now ⟨"GET", "Bearer " ++ T, b⟩ =
        .verified true u.ID u.Email u.Role ∧
      ParseWithClaims env.P env.jwtSecret now T = .ok (tokenClaims env t1 t2 u) ∧
      (tokenClaims env t1 t2 u).UserID = u.ID ∧
      (tokenClaims env t1 t2 u).Email = u.Email ∧
      (tokenClaims env t1 t2 u).Role = u.Role ∧
      (tokenClaims env t1 t2 u).Issuer = "openbricks-auth" ∧
      (tokenClaims env t1 t2 u).IssuedAt = some (Time.TruncateSecond t2) ∧
      (tokenClaims env t1 t2 u).ExpiresAt =
        some (Time.TruncateSecond (t1 + tokenLifetime env)) := by
  have hT : T = SignedString env.P .SHA256 (tokenClaims env t1 t2 u) env.jwtSecret := by
    simp only [generateToken, Except.ok.injEq, Prod.mk.injEq] at hgen
    exact hgen.1.symm
  have hv : Validate now (tokenClaims env t1 t2 u) = .ok () := by
    simp [Validate, tokenClaims, NewNumericDate, Time.Before, Time.Add, hnow]
  have hp : ParseWithClaims env.P env.jwtSecret now T = .ok (tokenClaims env t1 t2 u) := by
    rw [hT, parse_signed env.P env.jwtSecret now .SHA256 _ hcode, hv]
  refine ⟨?_, hp, rfl, rfl, rfl, rfl, rfl, rfl⟩
  rw [verifyHandler_bearer, hp]
  rfl

set_option maxRecDepth 100000 in
/-- C5, witness: the sample identity, validated half a second after issuance. -/
theorem issue_validate_roundtrip_witness :
    verifyHandler sampleEnv sampleNow
        ⟨"GET", "Bearer " ++ sampleToken .SHA256 sampleUser, none⟩ =
      .verified true 7 "a@b.com" "admin" :=
  (issue_validate_roundtrip sampleEnv sampleUser sampleT1 sampleT2 sampleNow none
    (sampleToken .SHA256 sampleUser) (sampleT1 + tokenLifetime sampleEnv) rfl
    (by decide) (by decide)).1

/-! ## Refresh -/

/-- C8: when the presented token decodes to claims `c` and the store returns
the row `u` for `c.UserID`, `refreshHandler` issues the HS256 token of claims
rebuilt from `u`: `user_id = u.ID`, `email = u.Email`, `role = u.Role`, whatever
the email and role of `c`; decoding the new token gives back exactly these
claims; so a stored role different from `c.Role` is the one the new token
carries. -/
theorem refresh_rebuilds_claims (env : Env) (now t1 t2 : Time) (h : String)
    (b : Option LoginRequest) (c : Claims) (u : User)
    (hne : h ≠ "")
    (hparse : ParseWithClaims env.P env.jwtSecret now (TrimPrefix h "Bearer ") = .ok c)
    (hrow : env.usersById c.UserID = .row u) :
    refreshHandler env now t1 t2 ⟨"POST", h, b⟩ =
        .token
          ⟨SignedString env.P .SHA256 (tokenClaims env t1 t2 { u with Password := "" })
              env.jwtSecret,
            t1 + tokenLifetime env, { u with Password := "" }⟩ ∧
      (tokenClaims env t1 t2 { u with Password := "" }).UserID = u.ID ∧
      (tokenClaims env t1 t2 { u with Password := "" }).Email = u.Email ∧
      (tokenClaims env t1 t2 { u with Password := "" }).Role = u.Role ∧
      (∀ now' : Time,
        env.P.CodesToken .SHA256 (tokenClaims env t1 t2 { u with Password := "" })
          env.jwtSecret →
        now' < Time.TruncateSecond (t1 + tokenLifetime env) →
        ∃ c' : Claims,
          ParseWithClaims env.P env.jwtSecret now'
              (SignedString env.P .SHA256 (tokenClaims env t1 t2 { u with Password := "" })
                env.jwtSecret) = .ok c' ∧
            c'.UserID = u.ID ∧ c'.Email = u.Email ∧ c'.Role = u.Role) ∧
      (u.Role ≠ c.Role →
        (tokenClaims env t1 t2 { u with Password := "" }).Role ≠ c.Role) := by
  refine ⟨?_, rfl, rfl, rfl, ?_, fun hr => hr⟩
  · simp only [refreshHandler]
    rw [if_neg (by simp), if_neg hne]
    simp only [hparse, hrow, generateToken, Time.Add]
  · intro now' hcode hnow
    have hv : Validate now' (tokenClaims env t1 t2 { u with Password := "" }) = .ok () := by
      simp [Validate, tokenClaims, NewNumericDate, Time.Before, Time.Add, hnow]
    exact ⟨_, by rw [parse_signed env.P env.jwtSecret now' .SHA256 _ hcode, hv], rfl, rfl, rfl⟩

set_option maxRecDepth 100000 in
/-- C8, witness: the presented token was issued when the role was `user`; the
store now says `admin`, and the refreshed token is the one for `admin`. -/
theorem refresh_rebuilds_claims_witness :
    ParseWithClaims sampleEnv.P sampleEnv.jwtSecret sampleNow
        (TrimPrefix ("Bearer " ++ sampleToken .SHA256 { sampleUser with Role := "user" })
          "Bearer ") =
        .ok (tokenClaims sampleEnv sampleT1 sampleT2 { sampleUser with Role := "user" }) ∧
      refreshHandler sampleEnv sampleNow sampleT1 sampleT2
          ⟨"POST", "Bearer " ++ sampleToken .SHA256 { sampleUser with Role := "user" }, none⟩ =
        .token
          ⟨sampleToken .SHA256 { sampleUser with Password := "" },
            sampleT1 + tokenLifetime sampleEnv, { sampleUser with Password := "" }⟩ :=
  ⟨by decide,
    (refresh_rebuilds_claims sampleEnv sampleNow sampleT1 sampleT2
      ("Bearer " ++ sampleToken .SHA256 { sampleUser with Role := "user" }) none
      (tokenClaims sampleEnv sampleT1 sampleT2 { sampleUser with Role := "user" }) sampleUser
      (by decide) (by decide) (by decide)).1⟩

/-! ## Failure classes of the decode step -/

set_option maxRecDepth 100000 in
/-- The failure classes of the decode step on sample tokens: a string that is
not three segments, a token verified under another key, an expired token, a
token asserting `none`, and a token asserting an unregistered algorithm. -/
theorem parse_failure_subtypes :
    ParseWithClaims sampleEnv.P sampleEnv.jwtSecret sampleNow "abc" = .error .Malformed ∧
      ParseWithClaims sampleEnv.P [1, 2, 3] sampleNow (sampleToken .SHA256 sampleUser) =
        .error .SignatureInvalid ∧
      ParseWithClaims sampleEnv.P sampleEnv.jwtSecret sampleLate
          (sampleToken .SHA256 sampleUser) = .error .Expired ∧
      ParseWithClaims sampleEnv.P sampleEnv.jwtSecret sampleNow
          ("hnone." ++ sampleEnv.P.encodeClaims
            (tokenClaims sampleEnv sampleT1 sampleT2 sampleUser) ++ ".") =
        .error .SignatureInvalid ∧
      ParseWithClaims sampleEnv.P sampleEnv.jwtSecret sampleNow
          ("hHS999." ++ sampleEnv.P.encodeClaims
            (tokenClaims sampleEnv sampleT1 sampleT2 sampleUser) ++ ".") =
        .error .Unverifiable := by
  decide

/-! ## Witnesses -/

/-- C3, witness: a `Basic` credential is answered with the header format error,
and `Bearer abc` goes on to the decoder with `abc`. -/
theorem verifyHandler_header_check_witness :
    verifyHandler sampleEnv sampleNow ⟨"GET", "Basic abc", none⟩ =
        verifyHandler (sampleEnvExpiry "1h") sampleLate ⟨"GET", "Basic abc", none⟩ ∧
      verifyHandler sampleEnv sampleNow ⟨"GET", "Bearer abc", none⟩ =
        (match ParseWithClaims sampleEnv.P sampleEnv.jwtSecret sampleNow "abc" with
        | .error _ => .error "\x7b\"error\":\"invalid or expired token\"\x7d" 401
        | .ok claims => .verified true claims.UserID claims.Email claims.Role) :=
  ⟨(verifyHandler_header_check (sampleEnvExpiry "1h") sampleLate "Basic abc" none).2.1
      (Or.inr (fun hx => absurd ((hasPrefix_iff _ _).2 hx) (by decide))) sampleEnv sampleNow,
    (verifyHandler_header_check sampleEnv sampleNow "Bearer abc" none).2.2 "abc" rfl⟩

/-- C6, witness: the same login request against a store without the email and
against a store with it, the password being wrong. -/
theorem login_no_user_enumeration_witness :
    loginHandler { sampleEnv with usersByEmail := fun _ => .ErrNoRows } sampleT1 sampleT2
        ⟨"POST", "", some ⟨"a@b.com", "wrong"⟩⟩ =
        .error "\x7b\"error\":\"invalid credentials\"\x7d" 401 ∧
      loginHandler sampleEnv sampleT1 sampleT2 ⟨"POST", "", some ⟨"a@b.com", "wrong"⟩⟩ =
        loginHandler { sampleEnv with usersByEmail := fun _ => .ErrNoRows } sampleT1 sampleT2
          ⟨"POST", "", some ⟨"a@b.com", "wrong"⟩⟩ :=
  login_no_user_enumeration { sampleEnv with usersByEmail := fun _ => .ErrNoRows } sampleEnv
    sampleT1 sampleT2 sampleT1 sampleT2 "" ⟨"a@b.com", "wrong"⟩ sampleUser
    (by decide) (by decide) (by decide)

set_option maxRecDepth 100000 in
/-- C7, witness: a correctly signed token presented after its expiry. -/
theorem verifyHandler_decode_failure_witness :
    ParseWithClaims sampleEnv.P sampleEnv.jwtSecret sampleLate
        (sampleToken .SHA256 sampleUser) = .error .Expired ∧
      verifyHandler sampleEnv sampleLate
          ⟨"GET", "Bearer " ++ sampleToken .SHA256 sampleUser, none⟩ =
        .error "\x7b\"error\":\"invalid or expired token\"\x7d" 401 :=
  ⟨by decide,
    verifyHandler_decode_failure sampleEnv sampleLate (sampleToken .SHA256 sampleUser) none
      .Expired (by decide)⟩

/-- C10, witness: unset, unparseable and parseable settings. -/
theorem generateToken_lifetime_witness :
    tokenLifetime sampleEnv = 24 * Hour ∧
      tokenLifetime (sampleEnvExpiry "soon") = 24 * Hour ∧
      tokenLifetime (sampleEnvExpiry "90m") = 5400 * Second :=
  ⟨(generateToken_lifetime sampleEnv sampleT1 sampleT2 sampleUser).1 (by decide),
    (generateToken_lifetime (sampleEnvExpiry "soon") sampleT1 sampleT2 sampleUser).2.1
      (by decide),
    (generateToken_lifetime (sampleEnvExpiry "90m") sampleT1 sampleT2 sampleUser).2.2.1
      (5400 * Second) (by decide) (by decide)⟩

end OpenBricks
